import Mathlib

/-!
# Verification of the cygnus 2D plot-data model

Shallow embedding of the plot-data layer of the repository:

* `PointData2D`, `PolylineData2D`, `PolygonData2D`
  (src/core/widgets/canvas_2d/plot_data/{point,polyline,polygon}_data_2d.py),
* the plot store `Canvas2DPlotData`
  (src/core/widgets/canvas_2d/plot_data/canvas_2d_plot_data.py),
* the view-model hit test `delete_point_near`
  (src/core/canvas_2d/canvas_2d_qviewmodel.py),
* the boundary/obstacle extraction
  (src/ga_dpp_runner/ga_dpp_runner_qwidget.py).

Conventions:
* Python `float` coordinates are modelled as `ℚ`; the only floating-point
  operation the verified code performs is `** 0.5` (square root) inside
  `distance_to`, which is modelled exactly as `Real.sqrt` over the rationals.
* Python `dict` (insertion-ordered, unique keys) is modelled as an
  insertion-ordered association list; assignment to an existing key replaces
  the value in place, assignment to a fresh key appends.
* The Python undo/redo stacks use `list.append` / `list.pop()` (push/pop at
  the end) and `list.pop(0)` (discard the oldest entry).  Here a stack is
  stored most-recent-first: `append` becomes `cons`, `pop()` becomes
  head/tail, and `pop(0)` becomes `List.dropLast`.
-/

namespace Cygnus

/-- `PointData2D.__init__` fields: id, x, y, color, deletable, update. -/
structure PointData2D where
  id : String
  x : ℚ
  y : ℚ
  color : String
  deletable : Bool
  update : Bool
deriving DecidableEq, Repr

/-- `PolylineData2D`: id, points, color, update. -/
structure PolylineData2D where
  id : String
  points : List PointData2D
  color : String
  update : Bool
deriving DecidableEq, Repr

/-- `PolygonData2D` state: id, color, `_points`, `_closed`, `_update`. -/
structure PolygonData2D where
  id : String
  color : String
  points : List PointData2D
  closed : Bool
  update : Bool
deriving DecidableEq, Repr

/-- The synthetic closing point created inside `PolygonData2D._ensure_closed`:
`PointData2D(id=f"{first_point.id}_close", x=first.x, y=first.y,
color=first.color, deletable=False, update=True)`. -/
def closingPoint (first : PointData2D) : PointData2D :=
  { id := first.id ++ "_close", x := first.x, y := first.y,
    color := first.color, deletable := false, update := true }

/-- `PolygonData2D._ensure_closed`: if the polygon has ≥ 3 points and is not
closed, append a copy of the first point when the last point differs from it
in x or y, then set `_closed = True`.  (The inner `match` arms other than
`some _, some _` are unreachable: a list of length ≥ 3 has a head and a
last element.) -/
def PolygonData2D.ensure_closed (g : PolygonData2D) : PolygonData2D :=
  if 3 ≤ g.points.length ∧ g.closed = false then
    match g.points.head?, g.points.getLast? with
    | some first, some lastP =>
      if first.x ≠ lastP.x ∨ first.y ≠ lastP.y then
        { g with points := g.points ++ [closingPoint first], closed := true }
      else
        { g with closed := true }
    | _, _ => { g with closed := true }
  else g

/-- `PolygonData2D.__init__`: store the points, set `_closed = False`, then
auto-close when the initial list already has ≥ 3 points. -/
def mkPolygonData2D (id : String) (points : List PointData2D) (color : String)
    (update : Bool) : PolygonData2D :=
  let g : PolygonData2D :=
    { id := id, color := color, points := points, closed := false, update := update }
  if 3 ≤ points.length then g.ensure_closed else g

/-- Python `list.insert(n, p)`: insert before index `n`, appending when `n`
is at or beyond the end of the list. -/
def listInsertAt (n : Nat) (p : PointData2D) : List PointData2D → List PointData2D
  | [] => [p]
  | q :: rest =>
    match n with
    | 0 => p :: q :: rest
    | m + 1 => q :: listInsertAt m p rest

/-- `PolygonData2D.add_point`: when closed with ≥ 3 points, insert at index
`len - 1` (before the closing point); otherwise append and auto-close once
the list reaches 3 points.  Always sets `_update = True` (the Python method
assigns `self._update = True` as its final statement, rendered here by
setting `update := true` in each branch). -/
def PolygonData2D.add_point (g : PolygonData2D) (p : PointData2D) : PolygonData2D :=
  if g.closed = true ∧ 3 ≤ g.points.length then
    { g with points := listInsertAt (g.points.length - 1) p g.points, update := true }
  else if 3 ≤ (g.points ++ [p]).length then
    { ({ g with points := g.points ++ [p] }.ensure_closed) with update := true }
  else
    { g with points := g.points ++ [p], update := true }

/-- Python `str.endswith(suffix)`, expressed on the character sequences of
the two strings (`String.endsWith` itself does not reduce in the kernel). -/
def strEndsWith (s suffix : String) : Bool :=
  suffix.data.isSuffixOf s.data

/-- The `for i, point in enumerate(...)`/`del self._points[i]` pattern:
locate the first point whose id matches and return it together with the list
with that occurrence removed. -/
def removeFirstById (pid : String) : List PointData2D → Option (PointData2D × List PointData2D)
  | [] => none
  | p :: rest =>
    if p.id = pid then some (p, rest)
    else
      match removeFirstById pid rest with
      | none => none
      | some (q, rest2) => some (q, p :: rest2)

/-- After a deletion that leaves fewer than 3 points, the Python code pops
the trailing point if (the list is non-empty and) its id ends in
`"_close"`. -/
def uncloseFix (pts : List PointData2D) : List PointData2D :=
  match pts.getLast? with
  | some lastP => if strEndsWith lastP.id "_close" then pts.dropLast else pts
  | none => pts

/-- `PolygonData2D.remove_point`: refuse (returning `False`, no mutation)
when the first point with a matching id is non-deletable; otherwise delete
it, and if fewer than 3 points remain, unclose the polygon and additionally
pop the trailing point when its id ends in `"_close"` (`uncloseFix`); with
≥ 3 points left, re-run `_ensure_closed`.  Sets `_update = True` on
success (the Python method's final assignment before `return True`). -/
def PolygonData2D.remove_point (g : PolygonData2D) (pid : String) : Bool × PolygonData2D :=
  match removeFirstById pid g.points with
  | none => (false, g)
  | some (p, pts) =>
    if p.deletable = false then (false, g)
    else if pts.length < 3 then
      (true, { g with points := uncloseFix pts, closed := false, update := true })
    else
      (true, { ({ g with points := pts }.ensure_closed) with update := true })

/-- `PolylineData2D.remove_point`: remove the first point with a matching id
(no deletability check in the polyline class); sets `_update = True`. -/
def PolylineData2D.remove_point (l : PolylineData2D) (pid : String) : Bool × PolylineData2D :=
  match removeFirstById pid l.points with
  | none => (false, l)
  | some (_, pts) => (true, { l with points := pts, update := true })

/-! ## Basic facts about the polygon operations -/

lemma length_listInsertAt (n : Nat) (p : PointData2D) (l : List PointData2D) :
    (listInsertAt n p l).length = l.length + 1 := by
  induction l generalizing n with
  | nil => simp [listInsertAt]
  | cons q rest ih =>
    cases n with
    | zero => simp [listInsertAt]
    | succ m => simp [listInsertAt, ih]

lemma listInsertAt_ne_nil (n : Nat) (p : PointData2D) (l : List PointData2D) :
    listInsertAt n p l ≠ [] := by
  have h := length_listInsertAt n p l
  intro hnil
  rw [hnil] at h
  simp at h

lemma getLast?_listInsertAt (n : Nat) (p : PointData2D) (l : List PointData2D)
    (h : n < l.length) : (listInsertAt n p l).getLast? = l.getLast? := by
  induction l generalizing n with
  | nil => simp at h
  | cons q rest ih =>
    cases n with
    | zero =>
      cases rest with
      | nil => simp [listInsertAt]
      | cons r rest' => simp [listInsertAt]
    | succ m =>
      have hm : m < rest.length := by simpa using h
      have hne : rest ≠ [] := by
        intro hnil; rw [hnil] at hm; simp at hm
      show (q :: listInsertAt m p rest).getLast? = (q :: rest).getLast?
      obtain ⟨x, xs, hx⟩ := List.exists_cons_of_ne_nil (listInsertAt_ne_nil m p rest)
      obtain ⟨r, rs, hr⟩ := List.exists_cons_of_ne_nil hne
      rw [hx, List.getLast?_cons_cons, ← hx, ih m hm, hr, List.getLast?_cons_cons, ← hr]

lemma removeFirstById_length (pid : String) (l : List PointData2D)
    (p : PointData2D) (rest : List PointData2D)
    (h : removeFirstById pid l = some (p, rest)) : rest.length + 1 = l.length := by
  induction l generalizing p rest with
  | nil => simp [removeFirstById] at h
  | cons q l' ih =>
    rw [removeFirstById] at h
    by_cases hq : q.id = pid
    · rw [if_pos hq] at h
      simp only [Option.some.injEq, Prod.mk.injEq] at h
      obtain ⟨-, hrest⟩ := h
      subst hrest
      rfl
    · rw [if_neg hq] at h
      cases hr : removeFirstById pid l' with
      | none => rw [hr] at h; cases h
      | some pr =>
        obtain ⟨p2, rest2⟩ := pr
        rw [hr] at h
        have hlen := ih p2 rest2 hr
        simp only [Option.some.injEq, Prod.mk.injEq] at h
        obtain ⟨-, hrest⟩ := h
        subst hrest
        simp only [List.length_cons]
        omega

lemma ensure_closed_of_closed (g : PolygonData2D) (h : g.closed = true) :
    g.ensure_closed = g := by
  unfold PolygonData2D.ensure_closed
  rw [if_neg]
  simp [h]

lemma ensure_closed_of_short (g : PolygonData2D) (h : g.points.length < 3) :
    g.ensure_closed = g := by
  unfold PolygonData2D.ensure_closed
  rw [if_neg]
  intro hc
  exact absurd hc.1 (by omega)

lemma ensure_closed_spec (g : PolygonData2D) (h3 : 3 ≤ g.points.length) :
    g.ensure_closed.closed = true ∧ 3 ≤ g.ensure_closed.points.length ∧
      g.ensure_closed.id = g.id ∧ g.ensure_closed.update = g.update := by
  cases hc : g.closed with
  | true =>
    rw [ensure_closed_of_closed g hc]
    exact ⟨hc, h3, rfl, rfl⟩
  | false =>
    unfold PolygonData2D.ensure_closed
    rw [if_pos ⟨h3, hc⟩]
    split
    · split
      · refine ⟨rfl, ?_, rfl, rfl⟩
        simp
        omega
      · exact ⟨rfl, h3, rfl, rfl⟩
    · exact ⟨rfl, h3, rfl, rfl⟩

/-! ## Claim C1: polygon closure invariant

The polygon is driven from the empty polygon by an arbitrary sequence of
`add_point`/`remove_point` calls. -/

/-- One public polygon mutation. -/
inductive PolyOp where
  | add (p : PointData2D)
  | remove (pid : String)

def applyPolyOp (g : PolygonData2D) : PolyOp → PolygonData2D
  | .add p => g.add_point p
  | .remove pid => (g.remove_point pid).2

def applyPolyOps (g : PolygonData2D) : List PolyOp → PolygonData2D
  | [] => g
  | op :: rest => applyPolyOps (applyPolyOp g op) rest

/-- A polygon constructed with an empty point list. -/
def emptyPolygon : PolygonData2D := mkPolygonData2D "polygon" [] "g" true

/-- The closure flag tracks "at least 3 points". -/
def closedInv (g : PolygonData2D) : Prop := g.closed = decide (3 ≤ g.points.length)

lemma add_point_closedInv (g : PolygonData2D) (p : PointData2D) (h : closedInv g) :
    closedInv (g.add_point p) := by
  unfold closedInv at h ⊢
  unfold PolygonData2D.add_point
  split
  · rename_i hc
    dsimp only
    rw [length_listInsertAt, hc.1]
    have := hc.2
    simp
    omega
  · split
    · rename_i hc h3
      have h3' : (3 : Nat) ≤ ({ g with points := g.points ++ [p] } : PolygonData2D).points.length := by
        simpa using h3
      obtain ⟨hcl, hlen3, -, -⟩ := ensure_closed_spec _ h3'
      dsimp only
      rw [hcl]
      simp [hlen3]
    · rename_i hc h3
      dsimp only
      cases hcl : g.closed with
      | false =>
        simp only [List.length_append, List.length_cons, List.length_nil] at h3 ⊢
        simp
        omega
      | true =>
        exact absurd ⟨hcl, of_decide_eq_true (hcl ▸ h).symm⟩ hc

lemma remove_point_closedInv (g : PolygonData2D) (pid : String) (h : closedInv g) :
    closedInv (g.remove_point pid).2 := by
  unfold closedInv at h ⊢
  unfold PolygonData2D.remove_point
  split
  · exact h
  · rename_i p pts hr
    split
    · exact h
    · split
      · rename_i hd hshort
        dsimp only
        have h1 : (uncloseFix pts).length ≤ pts.length := by
          unfold uncloseFix
          split
          · split
            · have := pts.length_dropLast
              omega
            · exact le_rfl
          · exact le_rfl
        simp
        omega
      · rename_i hd hlong
        have hlen := removeFirstById_length pid g.points p pts hr
        have h3 : 3 ≤ pts.length := by omega
        obtain ⟨hcl, hlen3, -, -⟩ :=
          ensure_closed_spec ({ g with points := pts }) (by simpa using h3)
        dsimp only
        rw [hcl]
        simp [hlen3]

lemma applyPolyOps_closedInv (ops : List PolyOp) (g : PolygonData2D) (h : closedInv g) :
    closedInv (applyPolyOps g ops) := by
  induction ops generalizing g with
  | nil => exact h
  | cons op rest ih =>
    apply ih
    cases op with
    | add p => exact add_point_closedInv g p h
    | remove pid => exact remove_point_closedInv g pid h

lemma emptyPolygon_closedInv : closedInv emptyPolygon := by
  unfold closedInv emptyPolygon mkPolygonData2D
  simp

/-- C1 (amended): starting from an empty polygon, after any sequence of
`add_point`/`remove_point` calls the polygon is closed exactly when its
point list has at least 3 entries.  (The original claim's additional
conjunct — that when closed the first and last points share coordinates and
the last point is non-deletable — is refuted by `C1_counterexample`.) -/
theorem C1_closure_invariant (ops : List PolyOp) :
    ((applyPolyOps emptyPolygon ops).closed = true ↔
      3 ≤ (applyPolyOps emptyPolygon ops).points.length) := by
  have h := applyPolyOps_closedInv ops emptyPolygon emptyPolygon_closedInv
  unfold closedInv at h
  rw [h]
  simp

/-- C1 fails as stated: add (0,0), (1,0), (0,0) — the polygon closes without
a synthetic closing point because the first and last points coincide — then
add (2,2), which is inserted before the last point, and remove the first
point.  The result is closed with 3 points, yet its first point (1,0) and
last point (0,0) differ in coordinates, and its last point is deletable. -/
theorem C1_counterexample :
    (applyPolyOps emptyPolygon
        [PolyOp.add ⟨"a", 0, 0, "r", true, true⟩, PolyOp.add ⟨"b", 1, 0, "r", true, true⟩,
         PolyOp.add ⟨"c", 0, 0, "r", true, true⟩, PolyOp.add ⟨"d", 2, 2, "r", true, true⟩,
         PolyOp.remove "a"]).closed = true ∧
    (applyPolyOps emptyPolygon
        [PolyOp.add ⟨"a", 0, 0, "r", true, true⟩, PolyOp.add ⟨"b", 1, 0, "r", true, true⟩,
         PolyOp.add ⟨"c", 0, 0, "r", true, true⟩, PolyOp.add ⟨"d", 2, 2, "r", true, true⟩,
         PolyOp.remove "a"]).points.head?.map (fun p => (p.x, p.y)) = some (1, 0) ∧
    (applyPolyOps emptyPolygon
        [PolyOp.add ⟨"a", 0, 0, "r", true, true⟩, PolyOp.add ⟨"b", 1, 0, "r", true, true⟩,
         PolyOp.add ⟨"c", 0, 0, "r", true, true⟩, PolyOp.add ⟨"d", 2, 2, "r", true, true⟩,
         PolyOp.remove "a"]).points.getLast?.map (fun p => (p.x, p.y, p.deletable))
      = some (0, 0, true) := by
  decide

/-! ## Unfolding lemmas for the polygon operations -/

lemma ensure_closed_eq (g : PolygonData2D) (first lastP : PointData2D)
    (h3 : 3 ≤ g.points.length) (hc : g.closed = false)
    (hf : g.points.head? = some first) (hl : g.points.getLast? = some lastP) :
    g.ensure_closed =
      if first.x ≠ lastP.x ∨ first.y ≠ lastP.y then
        { g with points := g.points ++ [closingPoint first], closed := true }
      else { g with closed := true } := by
  unfold PolygonData2D.ensure_closed
  rw [if_pos ⟨h3, hc⟩, hf, hl]

lemma remove_point_eq_short (g : PolygonData2D) (pid : String)
    (p : PointData2D) (pts : List PointData2D)
    (hfind : removeFirstById pid g.points = some (p, pts))
    (hdel : p.deletable = true) (hshort : pts.length < 3) :
    g.remove_point pid =
      (true, { g with points := uncloseFix pts, closed := false, update := true }) := by
  unfold PolygonData2D.remove_point
  rw [hfind]
  dsimp only
  rw [if_neg (by simp [hdel]), if_pos hshort]

lemma getElem?_listInsertAt_self (n : Nat) (p : PointData2D) (l : List PointData2D)
    (h : n ≤ l.length) : (listInsertAt n p l)[n]? = some p := by
  induction l generalizing n with
  | nil =>
    have hn : n = 0 := by simpa using h
    subst hn
    simp [listInsertAt]
  | cons q rest ih =>
    cases n with
    | zero => simp [listInsertAt]
    | succ m =>
      simp only [listInsertAt, List.getElem?_cons_succ]
      exact ih m (by simpa using h)

/-! ## Claim C5: protection of non-deletable points -/

/-- C5 (amended): whenever the *first* point of the polygon's list whose id
equals the requested id is non-deletable (in particular whenever point ids
are unique and the requested point is non-deletable, e.g. the synthetic
closing point), `remove_point` returns `false` and leaves the entire
polygon — its point list, closed flag and dirty flag — unchanged.  The
original claim, quantifying over *any* non-deletable point present in the
list, fails when a deletable point earlier in the list shares the same id:
see `C5_counterexample`. -/
theorem C5_nondeletable_protection (g : PolygonData2D) (pid : String)
    (p : PointData2D) (pts : List PointData2D)
    (hfind : removeFirstById pid g.points = some (p, pts))
    (hnd : p.deletable = false) :
    g.remove_point pid = (false, g) := by
  unfold PolygonData2D.remove_point
  rw [hfind]
  dsimp only
  rw [if_pos hnd]

/-- Witness for C5: deleting the synthetic closing point of a closed
triangle by its id `"a_close"` is rejected and mutates nothing. -/
theorem C5_witness :
    (mkPolygonData2D "g"
        [⟨"a", 0, 0, "r", true, true⟩, ⟨"b", 1, 0, "r", true, true⟩,
         ⟨"c", 0, 1, "r", true, true⟩] "g" true).remove_point "a_close"
      = (false, mkPolygonData2D "g"
          [⟨"a", 0, 0, "r", true, true⟩, ⟨"b", 1, 0, "r", true, true⟩,
           ⟨"c", 0, 1, "r", true, true⟩] "g" true) :=
  C5_nondeletable_protection _ "a_close" ⟨"a_close", 0, 0, "r", false, true⟩
    [⟨"a", 0, 0, "r", true, true⟩, ⟨"b", 1, 0, "r", true, true⟩,
     ⟨"c", 0, 1, "r", true, true⟩]
    (by decide) (by decide)

/-- C5 fails as stated: a polygon holding a deletable point with id `"a"`
*before* a non-deletable point with the same id `"a"`.  A non-deletable
point with id `"a"` is present, yet `remove_point "a"` returns `true` and
mutates the list (it removes the first match). -/
theorem C5_counterexample :
    (∃ p ∈ (mkPolygonData2D "g"
        [⟨"a", 0, 0, "r", true, true⟩, ⟨"a", 1, 1, "r", false, true⟩] "g" true).points,
      p.deletable = false ∧ p.id = "a") ∧
    ((mkPolygonData2D "g"
        [⟨"a", 0, 0, "r", true, true⟩, ⟨"a", 1, 1, "r", false, true⟩] "g" true).remove_point
        "a").1 = true ∧
    ((mkPolygonData2D "g"
        [⟨"a", 0, 0, "r", true, true⟩, ⟨"a", 1, 1, "r", false, true⟩] "g" true).remove_point
        "a").2.points
      = [⟨"a", 1, 1, "r", false, true⟩] := by
  decide

/-! ## Claim C7: insertion before the closing point -/

/-- C7: on a closed polygon with at least 3 points, `add_point p` inserts
`p` at index `len - 1`, the previously-last point is still the last point
afterwards, and the dirty flag becomes true. -/
theorem C7_insert_before_closing (g : PolygonData2D) (p : PointData2D)
    (hc : g.closed = true) (h3 : 3 ≤ g.points.length) :
    (g.add_point p).points = listInsertAt (g.points.length - 1) p g.points ∧
    (g.add_point p).points[g.points.length - 1]? = some p ∧
    (g.add_point p).points.getLast? = g.points.getLast? ∧
    (g.add_point p).update = true := by
  unfold PolygonData2D.add_point
  rw [if_pos ⟨hc, h3⟩]
  refine ⟨rfl, ?_, ?_, rfl⟩
  · exact getElem?_listInsertAt_self _ p g.points (by omega)
  · exact getLast?_listInsertAt _ p g.points (by omega)

/-- Witness for C7 on a concrete closed square-ish polygon. -/
theorem C7_witness :
    ((mkPolygonData2D "g"
        [⟨"a", 0, 0, "r", true, true⟩, ⟨"b", 1, 0, "r", true, true⟩,
         ⟨"c", 0, 1, "r", true, true⟩] "g" true).add_point
        ⟨"d", 5, 5, "r", true, true⟩).points
        = listInsertAt
            ((mkPolygonData2D "g"
                [⟨"a", 0, 0, "r", true, true⟩, ⟨"b", 1, 0, "r", true, true⟩,
                 ⟨"c", 0, 1, "r", true, true⟩] "g" true).points.length - 1)
            ⟨"d", 5, 5, "r", true, true⟩
            (mkPolygonData2D "g"
                [⟨"a", 0, 0, "r", true, true⟩, ⟨"b", 1, 0, "r", true, true⟩,
                 ⟨"c", 0, 1, "r", true, true⟩] "g" true).points ∧
    ((mkPolygonData2D "g"
        [⟨"a", 0, 0, "r", true, true⟩, ⟨"b", 1, 0, "r", true, true⟩,
         ⟨"c", 0, 1, "r", true, true⟩] "g" true).add_point
        ⟨"d", 5, 5, "r", true, true⟩).points[(mkPolygonData2D "g"
        [⟨"a", 0, 0, "r", true, true⟩, ⟨"b", 1, 0, "r", true, true⟩,
         ⟨"c", 0, 1, "r", true, true⟩] "g" true).points.length - 1]?
      = some ⟨"d", 5, 5, "r", true, true⟩ ∧
    ((mkPolygonData2D "g"
        [⟨"a", 0, 0, "r", true, true⟩, ⟨"b", 1, 0, "r", true, true⟩,
         ⟨"c", 0, 1, "r", true, true⟩] "g" true).add_point
        ⟨"d", 5, 5, "r", true, true⟩).points.getLast?
      = (mkPolygonData2D "g"
        [⟨"a", 0, 0, "r", true, true⟩, ⟨"b", 1, 0, "r", true, true⟩,
         ⟨"c", 0, 1, "r", true, true⟩] "g" true).points.getLast? ∧
    ((mkPolygonData2D "g"
        [⟨"a", 0, 0, "r", true, true⟩, ⟨"b", 1, 0, "r", true, true⟩,
         ⟨"c", 0, 1, "r", true, true⟩] "g" true).add_point
        ⟨"d", 5, 5, "r", true, true⟩).update = true :=
  C7_insert_before_closing _ _ (by decide) (by decide)

/-! ## Claim C9: auto-closure in the constructor -/

/-- C9: constructing a polygon from ≥ 3 points immediately closes it; when
the first and last points differ in x or y, exactly one synthetic point is
appended — coordinates and color of the first point, id of the first point
with `"_close"` appended, non-deletable; when they already coincide, the
point list is left untouched. -/
theorem C9_constructor_autoclose (idStr colorStr : String) (upd : Bool)
    (pts : List PointData2D) (first lastP : PointData2D)
    (hf : pts.head? = some first) (hl : pts.getLast? = some lastP)
    (h3 : 3 ≤ pts.length) :
    ((first.x ≠ lastP.x ∨ first.y ≠ lastP.y) →
      mkPolygonData2D idStr pts colorStr upd =
        { id := idStr, color := colorStr,
          points := pts ++ [{ id := first.id ++ "_close", x := first.x, y := first.y,
                              color := first.color, deletable := false, update := true }],
          closed := true, update := upd }) ∧
    ((first.x = lastP.x ∧ first.y = lastP.y) →
      mkPolygonData2D idStr pts colorStr upd =
        { id := idStr, color := colorStr, points := pts, closed := true, update := upd }) := by
  have hbase :=
    ensure_closed_eq
      { id := idStr, color := colorStr, points := pts, closed := false, update := upd }
      first lastP (by simpa using h3) rfl (by simpa using hf) (by simpa using hl)
  constructor
  · intro hne
    unfold mkPolygonData2D
    dsimp only
    rw [if_pos h3, hbase, if_pos hne]
    rfl
  · intro heq
    unfold mkPolygonData2D
    dsimp only
    rw [if_pos h3, hbase, if_neg (by push_neg; exact heq)]

/-- Witness for C9: a concrete triangle whose first and last points differ
gets the synthetic closing point `"a_close"` appended. -/
theorem C9_witness :
    mkPolygonData2D "g"
        [⟨"a", 0, 0, "r", true, true⟩, ⟨"b", 1, 0, "r", true, true⟩,
         ⟨"c", 0, 1, "r", true, true⟩] "g" true
      = { id := "g", color := "g",
          points := [⟨"a", 0, 0, "r", true, true⟩, ⟨"b", 1, 0, "r", true, true⟩,
                     ⟨"c", 0, 1, "r", true, true⟩]
            ++ [{ id := "a" ++ "_close", x := 0, y := 0, color := "r",
                  deletable := false, update := true }],
          closed := true, update := true } :=
  (C9_constructor_autoclose "g" "g" true
      [⟨"a", 0, 0, "r", true, true⟩, ⟨"b", 1, 0, "r", true, true⟩,
       ⟨"c", 0, 1, "r", true, true⟩]
      ⟨"a", 0, 0, "r", true, true⟩ ⟨"c", 0, 1, "r", true, true⟩
      (by decide) (by decide) (by decide)).1 (by decide)

/-! ## Claim C10: suffix-based un-closure -/

/-- C10: when a successful `remove_point` leaves fewer than 3 points, the
polygon becomes un-closed and the remaining trailing point is dropped
exactly when its id ends in `"_close"` — the decision depends only on the
id suffix, never on the trailing point's coordinates or deletable flag
(which are arbitrary here). -/
theorem C10_unclose_suffix (g : PolygonData2D) (pid : String)
    (p : PointData2D) (pts : List PointData2D)
    (hfind : removeFirstById pid g.points = some (p, pts))
    (hdel : p.deletable = true) (hshort : pts.length < 3) :
    (g.remove_point pid).1 = true ∧
    (g.remove_point pid).2.closed = false ∧
    (∀ q, pts.getLast? = some q → strEndsWith q.id "_close" = true →
      (g.remove_point pid).2.points = pts.dropLast) ∧
    (∀ q, pts.getLast? = some q → strEndsWith q.id "_close" = false →
      (g.remove_point pid).2.points = pts) ∧
    (pts.getLast? = none → (g.remove_point pid).2.points = pts) := by
  rw [remove_point_eq_short g pid p pts hfind hdel hshort]
  refine ⟨rfl, rfl, ?_, ?_, ?_⟩
  · intro q hq hsuf
    dsimp only
    unfold uncloseFix
    rw [hq]
    dsimp only
    rw [if_pos hsuf]
  · intro q hq hsuf
    dsimp only
    unfold uncloseFix
    rw [hq]
    dsimp only
    rw [if_neg (by simp [hsuf])]
  · intro hnone
    dsimp only
    unfold uncloseFix
    rw [hnone]

/-- Witness for C10: removing `"c"` from the closed triangle (after `"b"`
was already removed) leaves `[a, a_close]`, below 3 points, and the
trailing `"a_close"` is discarded by its id suffix. -/
theorem C10_witness :
    (((mkPolygonData2D "g"
        [⟨"a", 0, 0, "r", true, true⟩, ⟨"b", 1, 0, "r", true, true⟩,
         ⟨"c", 0, 1, "r", true, true⟩] "g" true).remove_point "b").2.remove_point
        "c").2.points
      = [⟨"a", 0, 0, "r", true, true⟩] :=
  (C10_unclose_suffix _ "c" ⟨"c", 0, 1, "r", true, true⟩
      [⟨"a", 0, 0, "r", true, true⟩, ⟨"a_close", 0, 0, "r", false, true⟩]
      (by decide) (by decide) (by decide)).2.2.1
    ⟨"a_close", 0, 0, "r", false, true⟩ (by decide) (by decide)

/-! ## The plot store `Canvas2DPlotData`

A stored plot is one of the three concrete plot classes.  The Python store
keeps them in `self._plots: Dict[str, Base2DPlotData]`, an insertion-ordered
dictionary, modelled as an insertion-ordered association list. -/

/-- A heterogeneous plot value (the `Base2DPlotData` class hierarchy as a
closed sum: the code only ever stores these three classes). -/
inductive Base2DPlotData where
  | point (p : PointData2D)
  | polyline (l : PolylineData2D)
  | polygon (g : PolygonData2D)
deriving DecidableEq, Repr

def Base2DPlotData.id : Base2DPlotData → String
  | .point p => p.id
  | .polyline l => l.id
  | .polygon g => g.id

/-- The `update` property setter (`plot.update = b`). -/
def Base2DPlotData.setUpdate : Base2DPlotData → Bool → Base2DPlotData
  | .point p, b => .point { p with update := b }
  | .polyline l, b => .polyline { l with update := b }
  | .polygon g, b => .polygon { g with update := b }

abbrev PlotMap := List (String × Base2DPlotData)

/-- `self._plots[k] = v` on a Python dict: replace in place if the key is
present, append otherwise. -/
def dictInsert (k : String) (v : Base2DPlotData) : PlotMap → PlotMap
  | [] => [(k, v)]
  | (k0, v0) :: rest => if k0 = k then (k, v) :: rest else (k0, v0) :: dictInsert k v rest

/-- `k in self._plots`. -/
def containsKey (k : String) (m : PlotMap) : Bool :=
  m.any (fun kv => kv.1 == k)

/-- `del self._plots[k]` (keys are unique, so deleting the first binding). -/
def dictErase (k : String) : PlotMap → PlotMap
  | [] => []
  | (k0, v0) :: rest => if k0 = k then rest else (k0, v0) :: dictErase k rest

/-- The per-point deep copy used by the snapshot code:
`PointData2D(p.id, p.x, p.y, p.color, p.deletable, False)`. -/
def copyPoint (p : PointData2D) : PointData2D :=
  { p with update := false }

/-- The per-plot deep copy used by `_save_state_for_undo`/`undo`/`redo`.
Note that the polygon branch rebuilds the copy through the
`PolygonData2D` constructor, which re-runs the auto-closure. -/
def copyPlot : Base2DPlotData → Base2DPlotData
  | .point p => .point (copyPoint p)
  | .polyline l =>
    .polyline { id := l.id, points := l.points.map copyPoint, color := l.color, update := false }
  | .polygon g => .polygon (mkPolygonData2D g.id (g.points.map copyPoint) g.color false)

/-- The whole-store deep copy (`state_copy` in the Python code). -/
def copyState (m : PlotMap) : PlotMap :=
  m.map (fun kv => (kv.1, copyPlot kv.2))

/-- `for plot in self._plots.values(): plot.update = True` after a restore. -/
def markAllPlots (m : PlotMap) : PlotMap :=
  m.map (fun kv => (kv.1, kv.2.setUpdate true))

/-- `Canvas2DPlotData` state: the plots dictionary and both history stacks
(most-recent-first, see the header comment). -/
structure Canvas2DPlotData where
  plots : PlotMap
  undo_stack : List PlotMap
  redo_stack : List PlotMap
deriving DecidableEq, Repr

/-- A freshly constructed store: everything empty. -/
def freshStore : Canvas2DPlotData := { plots := [], undo_stack := [], redo_stack := [] }

/-- `_save_state_for_undo`: push a deep copy, drop the oldest entry when the
stack exceeds 100 entries, clear the redo stack. -/
def Canvas2DPlotData.save_state_for_undo (s : Canvas2DPlotData) : Canvas2DPlotData :=
  { s with
    undo_stack :=
      if 100 < (copyState s.plots :: s.undo_stack).length then
        (copyState s.plots :: s.undo_stack).dropLast
      else
        copyState s.plots :: s.undo_stack,
    redo_stack := [] }

/-- `add_plot`: snapshot, then `self._plots[plot.id] = plot` and
`plot.update = True`. -/
def Canvas2DPlotData.add_plot (s : Canvas2DPlotData) (pl : Base2DPlotData) : Canvas2DPlotData :=
  { s.save_state_for_undo with
    plots := dictInsert pl.id (pl.setUpdate true) s.plots }

/-- `remove_plot`: when the id is present, snapshot and delete, returning
`True`; otherwise return `False` without touching anything. -/
def Canvas2DPlotData.remove_plot (s : Canvas2DPlotData) (pid : String) :
    Bool × Canvas2DPlotData :=
  if containsKey pid s.plots then
    (true, { s.save_state_for_undo with plots := dictErase pid s.plots })
  else
    (false, s)

/-- `undo`: `False` on an empty undo stack; otherwise push a deep copy of
the current plots onto the redo stack, pop the undo stack into the current
plots and mark every restored plot dirty. -/
def Canvas2DPlotData.undo (s : Canvas2DPlotData) : Bool × Canvas2DPlotData :=
  match s.undo_stack with
  | [] => (false, s)
  | prev :: rest =>
    (true, { plots := markAllPlots prev, undo_stack := rest,
             redo_stack := copyState s.plots :: s.redo_stack })

/-- `redo`: symmetric to `undo` (note: it pushes onto the undo stack
directly, without the 100-entry bound and without clearing anything). -/
def Canvas2DPlotData.redo (s : Canvas2DPlotData) : Bool × Canvas2DPlotData :=
  match s.redo_stack with
  | [] => (false, s)
  | next :: rest =>
    (true, { plots := markAllPlots next, undo_stack := copyState s.plots :: s.undo_stack,
             redo_stack := rest })

/-- `clear`: snapshot, then empty the plots dictionary. -/
def Canvas2DPlotData.clear (s : Canvas2DPlotData) : Canvas2DPlotData :=
  { s.save_state_for_undo with plots := [] }

/-! ## Store operation sequences -/

/-- One public store call. -/
inductive StoreOp where
  | addPlot (pl : Base2DPlotData)
  | removePlot (pid : String)
  | clearPlots
  | saveState
deriving DecidableEq, Repr

def applyOp (s : Canvas2DPlotData) : StoreOp → Canvas2DPlotData
  | .addPlot pl => s.add_plot pl
  | .removePlot pid => (s.remove_plot pid).2
  | .clearPlots => s.clear
  | .saveState => s.save_state_for_undo

def applyOps (s : Canvas2DPlotData) : List StoreOp → Canvas2DPlotData
  | [] => s
  | op :: rest => applyOps (applyOp s op) rest

/-- The operations quantified over by the round-trip and history-bound
claims: `add_plot`, `remove_plot` that succeeds (its key is present at the
moment it runs), and `clear`. -/
def validOp (s : Canvas2DPlotData) : StoreOp → Bool
  | .addPlot _ => true
  | .removePlot pid => containsKey pid s.plots
  | .clearPlots => true
  | .saveState => false

def validOps (s : Canvas2DPlotData) : List StoreOp → Bool
  | [] => true
  | op :: rest => validOp s op && validOps (applyOp s op) rest

/-- A single mutating store call (for the redo-invalidation claim, which
additionally covers the public `save_state_for_undo`). -/
def mutatingOp (s : Canvas2DPlotData) : StoreOp → Bool
  | .addPlot _ => true
  | .removePlot pid => containsKey pid s.plots
  | .clearPlots => true
  | .saveState => true

/-- `undo()` called `n` times; the boolean is the conjunction of all the
returned flags. -/
def undoN : Nat → Canvas2DPlotData → Bool × Canvas2DPlotData
  | 0, s => (true, s)
  | n + 1, s => (s.undo.1 && (undoN n s.undo.2).1, (undoN n s.undo.2).2)

/-- `redo()` called `n` times; the boolean is the conjunction of all the
returned flags. -/
def redoN : Nat → Canvas2DPlotData → Bool × Canvas2DPlotData
  | 0, s => (true, s)
  | n + 1, s => (s.redo.1 && (redoN n s.redo.2).1, (redoN n s.redo.2).2)

lemma redo_of_empty (s : Canvas2DPlotData) (h : s.redo_stack = []) :
    s.redo = (false, s) := by
  unfold Canvas2DPlotData.redo
  rw [h]

lemma undo_of_empty (s : Canvas2DPlotData) (h : s.undo_stack = []) :
    s.undo = (false, s) := by
  unfold Canvas2DPlotData.undo
  rw [h]

/-! ## Claim C4: redo invalidation -/

/-- C4: any mutating store operation (add_plot, a remove_plot that
succeeds, clear, or a public save_state_for_undo call) leaves the redo
stack empty, so an immediately following `redo()` returns `false` and
changes nothing. -/
theorem C4_redo_invalidation (s : Canvas2DPlotData) (op : StoreOp)
    (hmut : mutatingOp s op = true) :
    (applyOp s op).redo_stack = [] ∧
    (applyOp s op).redo = (false, applyOp s op) := by
  have hredo : (applyOp s op).redo_stack = [] := by
    cases op with
    | addPlot pl => rfl
    | removePlot pid =>
      have hc : containsKey pid s.plots = true := hmut
      show ((s.remove_plot pid).2).redo_stack = []
      unfold Canvas2DPlotData.remove_plot
      rw [if_pos hc]
      rfl
    | clearPlots => rfl
    | saveState => rfl
  exact ⟨hredo, redo_of_empty _ hredo⟩

/-! ## The snapshot trail and the history bound (C3) -/

/-- The deep-copy snapshots a sequence of mutating operations takes, most
recent first (each operation snapshots the state it sees *before* it
mutates). -/
def trail (s : Canvas2DPlotData) : List StoreOp → List PlotMap
  | [] => []
  | op :: rest => trail (applyOp s op) rest ++ [copyState s.plots]

lemma trail_length (ops : List StoreOp) (s : Canvas2DPlotData) :
    (trail s ops).length = ops.length := by
  induction ops generalizing s with
  | nil => rfl
  | cons op rest ih => simp [trail, ih]

lemma trail_getLast? (op : StoreOp) (rest : List StoreOp) (s : Canvas2DPlotData) :
    (trail s (op :: rest)).getLast? = some (copyState s.plots) := by
  rw [trail]
  exact List.getLast?_concat _

lemma take_append_take {α : Type} (A B : List α) (k n : Nat) (h : n ≤ k) :
    (A ++ B.take k).take n = (A ++ B).take n := by
  induction A generalizing n with
  | nil =>
    simp only [List.nil_append]
    rw [List.take_take, Nat.min_eq_left h]
  | cons a A' ih =>
    cases n with
    | zero => simp
    | succ m =>
      simp only [List.cons_append, List.take_succ_cons]
      rw [ih m (by omega)]

lemma save_state_undo_stack (s : Canvas2DPlotData) (h : s.undo_stack.length ≤ 100) :
    (s.save_state_for_undo).undo_stack = (copyState s.plots :: s.undo_stack).take 100 := by
  unfold Canvas2DPlotData.save_state_for_undo
  dsimp only
  by_cases h1 : 100 < (copyState s.plots :: s.undo_stack).length
  · rw [if_pos h1]
    have hlen : (copyState s.plots :: s.undo_stack).length = 101 := by
      simp only [List.length_cons]
      simp only [List.length_cons] at h1
      omega
    rw [List.dropLast_eq_take, hlen]
  · rw [if_neg h1]
    rw [List.take_of_length_le (by omega)]

lemma applyOp_undo_stack (s : Canvas2DPlotData) (op : StoreOp)
    (hop : validOp s op = true) (h : s.undo_stack.length ≤ 100) :
    (applyOp s op).undo_stack = (copyState s.plots :: s.undo_stack).take 100 := by
  cases op with
  | addPlot pl => exact save_state_undo_stack s h
  | removePlot pid =>
    have hc : containsKey pid s.plots = true := hop
    show ((s.remove_plot pid).2).undo_stack = _
    unfold Canvas2DPlotData.remove_plot
    rw [if_pos hc]
    exact save_state_undo_stack s h
  | clearPlots => exact save_state_undo_stack s h
  | saveState => cases hop

lemma applyOps_undo_stack (ops : List StoreOp) (s : Canvas2DPlotData)
    (hval : validOps s ops = true) (h : s.undo_stack.length ≤ 100) :
    (applyOps s ops).undo_stack = (trail s ops ++ s.undo_stack).take 100 := by
  induction ops generalizing s with
  | nil =>
    simp only [applyOps, trail, List.nil_append]
    rw [List.take_of_length_le h]
  | cons op rest ih =>
    rw [validOps, Bool.and_eq_true] at hval
    obtain ⟨hop, hrest⟩ := hval
    have h1 := applyOp_undo_stack s op hop h
    have h2 : (applyOp s op).undo_stack.length ≤ 100 := by
      rw [h1]
      simp [List.length_take]
    show (applyOps (applyOp s op) rest).undo_stack = _
    rw [ih _ hrest h2, h1, take_append_take _ _ 100 100 le_rfl, trail,
      List.append_assoc, List.singleton_append]

/-- `undo` on a store whose undo stack is `prev :: rest`. -/
lemma undo_cons (s : Canvas2DPlotData) (prev : PlotMap) (rest : List PlotMap)
    (h : s.undo_stack = prev :: rest) :
    s.undo = (true, { plots := markAllPlots prev, undo_stack := rest,
                      redo_stack := copyState s.plots :: s.redo_stack }) := by
  unfold Canvas2DPlotData.undo
  rw [h]

/-- `redo` on a store whose redo stack is `next :: rest`. -/
lemma redo_cons (s : Canvas2DPlotData) (next : PlotMap) (rest : List PlotMap)
    (h : s.redo_stack = next :: rest) :
    s.redo = (true, { plots := markAllPlots next,
                      undo_stack := copyState s.plots :: s.undo_stack,
                      redo_stack := rest }) := by
  unfold Canvas2DPlotData.redo
  rw [h]

/-- Running `undo` as many times as the undo stack is deep: every call
returns `true`, the stack is drained, the plots become the (marked) oldest
snapshot, and the redo stack receives one copy per undo with the copy of
the *initial* plots pushed first (hence deepest). -/
lemma undoN_run (es : List PlotMap) (s : Canvas2DPlotData) (h : s.undo_stack = es) :
    (undoN es.length s).1 = true ∧
    (undoN es.length s).2.undo_stack = [] ∧
    (undoN es.length s).2.plots =
      (match es.getLast? with
       | none => s.plots
       | some e => markAllPlots e) ∧
    ∃ L : List PlotMap,
      (undoN es.length s).2.redo_stack = L ++ s.redo_stack ∧ L.length = es.length ∧
      (es ≠ [] → L.getLast? = some (copyState s.plots)) := by
  induction es generalizing s with
  | nil =>
    refine ⟨rfl, h, rfl, [], rfl, rfl, by intro hc; exact absurd rfl hc⟩
  | cons e es' ih =>
    have hu := undo_cons s e es' h
    obtain ⟨hb, hus, hp, L', hr, hL, hlast⟩ :=
      ih { plots := markAllPlots e, undo_stack := es',
           redo_stack := copyState s.plots :: s.redo_stack } rfl
    simp only [List.length_cons, undoN, hu]
    refine ⟨by simp [hb], hus, ?_, L' ++ [copyState s.plots], ?_, by simp [hL], ?_⟩
    · rw [hp]
      cases es' with
      | nil => rfl
      | cons f es'' =>
        rw [List.getLast?_cons_cons]
        cases hg : (f :: es'').getLast? with
        | none => exact absurd (List.getLast?_eq_none_iff.mp hg) (by simp)
        | some y => rfl
    · rw [hr]
      dsimp only
      rw [List.append_cons]
    · intro _
      exact List.getLast?_concat _

/-- Running `redo` as many times as the redo stack is deep: every call
returns `true` and the plots become the (marked) deepest entry of the redo
stack. -/
lemma redoN_run (rs : List PlotMap) (s : Canvas2DPlotData) (h : s.redo_stack = rs) :
    (redoN rs.length s).1 = true ∧
    (redoN rs.length s).2.plots =
      (match rs.getLast? with
       | none => s.plots
       | some e => markAllPlots e) := by
  induction rs generalizing s with
  | nil => exact ⟨rfl, rfl⟩
  | cons e rs' ih =>
    have hu := redo_cons s e rs' h
    obtain ⟨hb, hp⟩ :=
      ih { plots := markAllPlots e, undo_stack := copyState s.plots :: s.undo_stack,
           redo_stack := rs' } rfl
    simp only [List.length_cons, redoN, hu]
    refine ⟨by simp [hb], ?_⟩
    rw [hp]
    cases rs' with
    | nil => rfl
    | cons f rs'' =>
      rw [List.getLast?_cons_cons]
      cases hg : (f :: rs'').getLast? with
      | none => exact absurd (List.getLast?_eq_none_iff.mp hg) (by simp)
      | some y => rfl

/-- Each valid mutating operation leaves the redo stack empty. -/
lemma applyOps_redo_stack (ops : List StoreOp) (s : Canvas2DPlotData)
    (hval : validOps s ops = true) (hne : ops ≠ []) :
    (applyOps s ops).redo_stack = [] := by
  induction ops generalizing s with
  | nil => exact absurd rfl hne
  | cons op rest ih =>
    rw [validOps, Bool.and_eq_true] at hval
    obtain ⟨hop, hrest⟩ := hval
    show (applyOps (applyOp s op) rest).redo_stack = []
    cases rest with
    | nil =>
      show (applyOp s op).redo_stack = []
      cases op with
      | addPlot pl => rfl
      | removePlot pid =>
        have hc : containsKey pid s.plots = true := hop
        show ((s.remove_plot pid).2).redo_stack = []
        unfold Canvas2DPlotData.remove_plot
        rw [if_pos hc]
        rfl
      | clearPlots => rfl
      | saveState => cases hop
    | cons op2 rest2 => exact ih _ hrest (by simp)

/-- C3: 150 mutating operations on a fresh store leave the undo stack at
exactly the 100 most recent snapshots (the 50 oldest are discarded first),
`undo()` then succeeds exactly 100 consecutive times, and the 101st call
returns `false`. -/
theorem C3_history_bound (ops : List StoreOp)
    (hval : validOps freshStore ops = true) (hlen : ops.length = 150) :
    (applyOps freshStore ops).undo_stack = (trail freshStore ops).take 100 ∧
    (trail freshStore ops).length = 150 ∧
    (applyOps freshStore ops).undo_stack.length = 100 ∧
    (undoN 100 (applyOps freshStore ops)).1 = true ∧
    ((undoN 100 (applyOps freshStore ops)).2.undo).1 = false := by
  have htr : (trail freshStore ops).length = 150 := by rw [trail_length, hlen]
  have hstack := applyOps_undo_stack ops freshStore hval (by simp [freshStore])
  rw [show freshStore.undo_stack = [] from rfl, List.append_nil] at hstack
  have hslen : (applyOps freshStore ops).undo_stack.length = 100 := by
    rw [hstack, List.length_take, htr]
    omega
  have h100 : ((applyOps freshStore ops).undo_stack).length = 100 := hslen
  obtain ⟨hb, hus, -, -⟩ := undoN_run _ (applyOps freshStore ops) rfl
  rw [h100] at hb hus
  refine ⟨hstack, htr, hslen, hb, ?_⟩
  rw [undo_of_empty _ hus]

set_option maxRecDepth 8000 in
/-- Witness for C3: 150 `add_plot` calls (all overwriting one key). -/
theorem C3_witness :
    (applyOps freshStore
        (List.replicate 150 (StoreOp.addPlot (.point ⟨"p", 0, 0, "r", true, true⟩)))).undo_stack
        = (trail freshStore
            (List.replicate 150 (StoreOp.addPlot (.point ⟨"p", 0, 0, "r", true, true⟩)))).take
            100 ∧
    (trail freshStore
        (List.replicate 150 (StoreOp.addPlot (.point ⟨"p", 0, 0, "r", true, true⟩)))).length
      = 150 ∧
    (applyOps freshStore
        (List.replicate 150
          (StoreOp.addPlot (.point ⟨"p", 0, 0, "r", true, true⟩)))).undo_stack.length = 100 ∧
    (undoN 100 (applyOps freshStore
        (List.replicate 150 (StoreOp.addPlot (.point ⟨"p", 0, 0, "r", true, true⟩))))).1
      = true ∧
    ((undoN 100 (applyOps freshStore
        (List.replicate 150 (StoreOp.addPlot (.point ⟨"p", 0, 0, "r", true, true⟩))))).2.undo).1
      = false :=
  C3_history_bound
    (List.replicate 150 (StoreOp.addPlot (.point ⟨"p", 0, 0, "r", true, true⟩)))
    (by decide) (by decide)

/-- Witness for C4: adding a point plot to the fresh store. -/
theorem C4_witness :
    (applyOp freshStore (StoreOp.addPlot (.point ⟨"p", 1, 2, "r", true, true⟩))).redo_stack
        = [] ∧
    (applyOp freshStore (StoreOp.addPlot (.point ⟨"p", 1, 2, "r", true, true⟩))).redo
      = (false, applyOp freshStore (StoreOp.addPlot (.point ⟨"p", 1, 2, "r", true, true⟩))) :=
  C4_redo_invalidation freshStore (StoreOp.addPlot (.point ⟨"p", 1, 2, "r", true, true⟩))
    (by decide)

/-! ## Plot contents and the undo/redo round trip (C2)

"Plot contents" compares every field except the render-sync dirty flags
(`update` on plots and on the points inside them), which the spec calls
"dirty" markers. -/

/-- A plot with every dirty flag cleared — its contents. -/
def scrubPlot : Base2DPlotData → Base2DPlotData
  | .point p => .point { p with update := false }
  | .polyline l => .polyline { l with points := l.points.map copyPoint, update := false }
  | .polygon g => .polygon { g with points := g.points.map copyPoint, update := false }

/-- The contents of a whole plots dictionary. -/
def storeContents (m : PlotMap) : PlotMap :=
  m.map (fun kv => (kv.1, scrubPlot kv.2))

/-- A polygon the snapshot deep copy reproduces faithfully: its closure
flag matches "has ≥ 3 points" (true of every polygon the Python class can
construct), and when it has ≥ 3 points its first and last points share
coordinates.  The deep copy rebuilds polygons through the constructor, so
a closed polygon whose endpoints differ (reachable — see
`C1_counterexample`) gains an extra synthetic closing point in its copy. -/
def goodPolygon (g : PolygonData2D) : Bool :=
  (g.closed == decide (3 ≤ g.points.length)) &&
    (if 3 ≤ g.points.length then
      match g.points.head?, g.points.getLast? with
      | some f, some b => f.x == b.x && f.y == b.y
      | _, _ => true
     else true)

def goodPlot : Base2DPlotData → Bool
  | .polygon g => goodPolygon g
  | _ => true

def goodOp : StoreOp → Bool
  | .addPlot pl => goodPlot pl
  | _ => true

def goodStore (m : PlotMap) : Bool :=
  m.all (fun kv => goodPlot kv.2)

lemma copyPoint_comp : copyPoint ∘ copyPoint = copyPoint :=
  funext (fun _ => rfl)

lemma copyPlot_eq_scrub (pl : Base2DPlotData) (h : goodPlot pl = true) :
    copyPlot pl = scrubPlot pl := by
  cases pl with
  | point p => rfl
  | polyline l => rfl
  | polygon g =>
    obtain ⟨gid, gcolor, gpts, gclosed, gupd⟩ := g
    have hg : goodPolygon ⟨gid, gcolor, gpts, gclosed, gupd⟩ = true := h
    rw [goodPolygon, Bool.and_eq_true, beq_iff_eq] at hg
    obtain ⟨h1, h2⟩ := hg
    dsimp only at h1 h2
    show Base2DPlotData.polygon (mkPolygonData2D gid (gpts.map copyPoint) gcolor false)
      = Base2DPlotData.polygon ⟨gid, gcolor, gpts.map copyPoint, gclosed, false⟩
    by_cases h3 : 3 ≤ gpts.length
    · rw [if_pos h3] at h2
      have hcl : gclosed = true := by rw [h1]; simp [h3]
      have hne : gpts ≠ [] := by intro hnil; rw [hnil] at h3; simp at h3
      obtain ⟨f, hf⟩ := Option.ne_none_iff_exists'.mp (mt List.head?_eq_none_iff.mp hne)
      obtain ⟨b, hb⟩ := Option.ne_none_iff_exists'.mp (mt List.getLast?_eq_none_iff.mp hne)
      rw [hf, hb] at h2
      dsimp only at h2
      rw [Bool.and_eq_true, beq_iff_eq, beq_iff_eq] at h2
      obtain ⟨hx, hy⟩ := h2
      unfold mkPolygonData2D
      dsimp only
      rw [if_pos (show 3 ≤ (gpts.map copyPoint).length by simpa using h3)]
      rw [ensure_closed_eq _ (copyPoint f) (copyPoint b)
          (by simpa using h3) rfl
          (by show (gpts.map copyPoint).head? = _; rw [List.head?_map, hf]; rfl)
          (by show (gpts.map copyPoint).getLast? = _; rw [List.getLast?_map, hb]; rfl)]
      rw [if_neg (by push_neg; exact ⟨hx, hy⟩)]
      rw [hcl]
    · rw [if_neg h3] at h2
      have hcl : gclosed = false := by rw [h1]; simp [h3]
      unfold mkPolygonData2D
      dsimp only
      rw [if_neg (show ¬ 3 ≤ (gpts.map copyPoint).length by simpa using h3)]
      rw [hcl]

lemma scrub_setUpdate (pl : Base2DPlotData) (b : Bool) :
    scrubPlot (pl.setUpdate b) = scrubPlot pl := by
  cases pl <;> rfl

lemma scrub_idem (pl : Base2DPlotData) : scrubPlot (scrubPlot pl) = scrubPlot pl := by
  cases pl with
  | point p => rfl
  | polyline l =>
    show Base2DPlotData.polyline _ = _
    simp [scrubPlot, List.map_map, copyPoint_comp]
  | polygon g =>
    show Base2DPlotData.polygon _ = _
    simp [scrubPlot, List.map_map, copyPoint_comp]

lemma storeContents_markAll (m : PlotMap) :
    storeContents (markAllPlots m) = storeContents m := by
  unfold storeContents markAllPlots
  rw [List.map_map]
  congr 1
  funext kv
  simp [Function.comp, scrub_setUpdate]

lemma copyState_eq_contents (m : PlotMap) (h : goodStore m = true) :
    copyState m = storeContents m := by
  induction m with
  | nil => rfl
  | cons kv rest ih =>
    rw [goodStore, List.all_cons, Bool.and_eq_true] at h
    obtain ⟨h1, h2⟩ := h
    show (kv.1, copyPlot kv.2) :: copyState rest = (kv.1, scrubPlot kv.2) :: storeContents rest
    rw [copyPlot_eq_scrub kv.2 h1, ih h2]

lemma storeContents_idem (m : PlotMap) :
    storeContents (storeContents m) = storeContents m := by
  unfold storeContents
  rw [List.map_map]
  congr 1
  funext kv
  simp [Function.comp, scrub_idem]

lemma goodPlot_setUpdate (pl : Base2DPlotData) (b : Bool) (h : goodPlot pl = true) :
    goodPlot (pl.setUpdate b) = true := by
  cases pl with
  | point p => rfl
  | polyline l => rfl
  | polygon g => exact h

lemma goodStore_dictInsert (k : String) (v : Base2DPlotData) (m : PlotMap)
    (hm : goodStore m = true) (hv : goodPlot v = true) :
    goodStore (dictInsert k v m) = true := by
  induction m with
  | nil =>
    show (goodPlot v && true) = true
    simp [hv]
  | cons kv rest ih =>
    rw [goodStore, List.all_cons, Bool.and_eq_true] at hm
    obtain ⟨h1, h2⟩ := hm
    rw [dictInsert]
    by_cases hk : kv.1 = k
    · rw [if_pos hk]
      show (goodPlot v && rest.all (fun kv => goodPlot kv.2)) = true
      simp [hv, h2]
    · rw [if_neg hk]
      show (goodPlot kv.2 && (dictInsert k v rest).all (fun kv => goodPlot kv.2)) = true
      simp only [Bool.and_eq_true]
      exact ⟨h1, ih h2⟩

lemma goodStore_dictErase (k : String) (m : PlotMap) (hm : goodStore m = true) :
    goodStore (dictErase k m) = true := by
  induction m with
  | nil => rfl
  | cons kv rest ih =>
    rw [goodStore, List.all_cons, Bool.and_eq_true] at hm
    obtain ⟨h1, h2⟩ := hm
    rw [dictErase]
    by_cases hk : kv.1 = k
    · rw [if_pos hk]; exact h2
    · rw [if_neg hk]
      show (goodPlot kv.2 && (dictErase k rest).all (fun kv => goodPlot kv.2)) = true
      simp only [Bool.and_eq_true]
      exact ⟨h1, ih h2⟩

lemma applyOp_goodStore (s : Canvas2DPlotData) (op : StoreOp)
    (hs : goodStore s.plots = true) (hop : goodOp op = true) :
    goodStore (applyOp s op).plots = true := by
  cases op with
  | addPlot pl =>
    show goodStore (dictInsert pl.id (pl.setUpdate true) s.plots) = true
    exact goodStore_dictInsert _ _ _ hs (goodPlot_setUpdate pl true hop)
  | removePlot pid =>
    show goodStore ((s.remove_plot pid).2).plots = true
    unfold Canvas2DPlotData.remove_plot
    by_cases hc : containsKey pid s.plots = true
    · rw [if_pos hc]
      exact goodStore_dictErase pid s.plots hs
    · rw [if_neg hc]
      exact hs
  | clearPlots => rfl
  | saveState => exact hs

lemma applyOps_goodStore (ops : List StoreOp) (s : Canvas2DPlotData)
    (hs : goodStore s.plots = true) (hops : ops.all goodOp = true) :
    goodStore (applyOps s ops).plots = true := by
  induction ops generalizing s with
  | nil => exact hs
  | cons op rest ih =>
    rw [List.all_cons, Bool.and_eq_true] at hops
    exact ih _ (applyOp_goodStore s op hs hops.1) hops.2

/-- C2 (amended): for any sequence of at most 100 mutating operations
(add_plot / successful remove_plot / clear) on a fresh store — where
every polygon handed to add_plot satisfies the polygon class's own
invariants (closure flag equals "≥ 3 points", and a closed polygon's first
and last point coincide) — undoing N times returns `true` each time and
restores the plots to the state after construction, and then redoing N
times returns `true` each time and restores the plot contents (all fields
except the dirty flags) of the state after the N-th operation.  Without
the endpoint condition the redo half fails: see `C2_counterexample`. -/
theorem C2_undo_redo_roundtrip (ops : List StoreOp)
    (hval : validOps freshStore ops = true)
    (hgood : ops.all goodOp = true)
    (hlen : ops.length ≤ 100) :
    (undoN ops.length (applyOps freshStore ops)).1 = true ∧
    (undoN ops.length (applyOps freshStore ops)).2.plots = freshStore.plots ∧
    (redoN ops.length (undoN ops.length (applyOps freshStore ops)).2).1 = true ∧
    storeContents (redoN ops.length (undoN ops.length (applyOps freshStore ops)).2).2.plots
      = storeContents (applyOps freshStore ops).plots := by
  cases ops with
  | nil => exact ⟨rfl, rfl, rfl, rfl⟩
  | cons op0 rest0 =>
    have hundo := applyOps_undo_stack (op0 :: rest0) freshStore hval (by simp [freshStore])
    rw [show freshStore.undo_stack = [] from rfl, List.append_nil] at hundo
    have htrlen : (trail freshStore (op0 :: rest0)).length = (op0 :: rest0).length :=
      trail_length _ _
    have htne : trail freshStore (op0 :: rest0) ≠ [] := by
      intro hnil
      rw [hnil] at htrlen
      simp at htrlen
    rw [List.take_of_length_le (by rw [htrlen]; exact hlen)] at hundo
    obtain ⟨hb, hus, hp, L, hr, hL, hlast⟩ :=
      undoN_run (trail freshStore (op0 :: rest0)) (applyOps freshStore (op0 :: rest0)) hundo
    rw [htrlen] at hb hus hp hL
    rw [htrlen] at hr
    rw [trail_getLast? op0 rest0 freshStore] at hp
    dsimp only at hp
    have hredoS := applyOps_redo_stack (op0 :: rest0) freshStore hval (by simp)
    rw [hredoS, List.append_nil] at hr
    obtain ⟨hb2, hp2⟩ := redoN_run L _ hr
    rw [hL] at hb2 hp2
    rw [hlast htne] at hp2
    dsimp only at hp2
    refine ⟨hb, ?_, hb2, ?_⟩
    · rw [hp]
      rfl
    · rw [hp2, storeContents_markAll,
        copyState_eq_contents _ (applyOps_goodStore _ freshStore rfl hgood),
        storeContents_idem]

/-- Witness for C2: one add_plot of a well-formed point plot, undone and
redone once. -/
theorem C2_witness :
    (undoN [StoreOp.addPlot (.point ⟨"p", 1, 2, "r", true, true⟩)].length
        (applyOps freshStore [StoreOp.addPlot (.point ⟨"p", 1, 2, "r", true, true⟩)])).1
      = true ∧
    (undoN [StoreOp.addPlot (.point ⟨"p", 1, 2, "r", true, true⟩)].length
        (applyOps freshStore [StoreOp.addPlot (.point ⟨"p", 1, 2, "r", true, true⟩)])).2.plots
      = freshStore.plots ∧
    (redoN [StoreOp.addPlot (.point ⟨"p", 1, 2, "r", true, true⟩)].length
        (undoN [StoreOp.addPlot (.point ⟨"p", 1, 2, "r", true, true⟩)].length
          (applyOps freshStore [StoreOp.addPlot (.point ⟨"p", 1, 2, "r", true, true⟩)])).2).1
      = true ∧
    storeContents (redoN [StoreOp.addPlot (.point ⟨"p", 1, 2, "r", true, true⟩)].length
        (undoN [StoreOp.addPlot (.point ⟨"p", 1, 2, "r", true, true⟩)].length
          (applyOps freshStore
            [StoreOp.addPlot (.point ⟨"p", 1, 2, "r", true, true⟩)])).2).2.plots
      = storeContents
          (applyOps freshStore [StoreOp.addPlot (.point ⟨"p", 1, 2, "r", true, true⟩)]).plots :=
  C2_undo_redo_roundtrip [StoreOp.addPlot (.point ⟨"p", 1, 2, "r", true, true⟩)]
    (by decide) (by decide) (by decide)

/-- C2 fails as stated: one valid mutating operation (N = 1 ≤ 100) adds a
polygon that the polygon API itself can produce (build a triangle, then
remove its first point: the polygon stays closed but its endpoints
differ).  `undo()` succeeds and restores the empty store, `redo()`
returns `true`, but the restored plot contents differ from the state
after the operation: the snapshot deep copy rebuilt the polygon through
the constructor, which appended a second synthetic closing point. -/
theorem C2_counterexample :
    (undoN 1 (applyOps freshStore
        [StoreOp.addPlot (.polygon (((mkPolygonData2D "g"
          [⟨"a", 0, 0, "r", true, true⟩, ⟨"b", 1, 0, "r", true, true⟩,
           ⟨"c", 0, 1, "r", true, true⟩] "g" true).remove_point "a").2))])).1 = true ∧
    (undoN 1 (applyOps freshStore
        [StoreOp.addPlot (.polygon (((mkPolygonData2D "g"
          [⟨"a", 0, 0, "r", true, true⟩, ⟨"b", 1, 0, "r", true, true⟩,
           ⟨"c", 0, 1, "r", true, true⟩] "g" true).remove_point "a").2))])).2.plots
      = freshStore.plots ∧
    (redoN 1 (undoN 1 (applyOps freshStore
        [StoreOp.addPlot (.polygon (((mkPolygonData2D "g"
          [⟨"a", 0, 0, "r", true, true⟩, ⟨"b", 1, 0, "r", true, true⟩,
           ⟨"c", 0, 1, "r", true, true⟩] "g" true).remove_point "a").2))])).2).1 = true ∧
    storeContents (redoN 1 (undoN 1 (applyOps freshStore
        [StoreOp.addPlot (.polygon (((mkPolygonData2D "g"
          [⟨"a", 0, 0, "r", true, true⟩, ⟨"b", 1, 0, "r", true, true⟩,
           ⟨"c", 0, 1, "r", true, true⟩] "g" true).remove_point "a").2))])).2).2.plots
      ≠ storeContents (applyOps freshStore
        [StoreOp.addPlot (.polygon (((mkPolygonData2D "g"
          [⟨"a", 0, 0, "r", true, true⟩, ⟨"b", 1, 0, "r", true, true⟩,
           ⟨"c", 0, 1, "r", true, true⟩] "g" true).remove_point "a").2))]).plots := by
  decide

/-! ## The view-model hit test (C6) -/

/-- `PointData2D.distance_to`: Euclidean distance
`((self._x - x) ** 2 + (self._y - y) ** 2) ** 0.5`. -/
noncomputable def PointData2D.distance_to (p : PointData2D) (x y : ℚ) : ℝ :=
  Real.sqrt ((((p.x - x) ^ 2 + (p.y - y) ^ 2 : ℚ) : ℝ))

/-- Decidable form of the comparison `point.distance_to(x, y) <= threshold`
performed by `delete_point_near`; `dist_le_iff` proves it equal to the
real-number comparison, so the embedded scan stays executable. -/
def distLe (p : PointData2D) (x y t : ℚ) : Bool :=
  decide (0 ≤ t ∧ (p.x - x) ^ 2 + (p.y - y) ^ 2 ≤ t ^ 2)

lemma dist_le_iff (p : PointData2D) (x y t : ℚ) :
    distLe p x y t = true ↔ p.distance_to x y ≤ (t : ℝ) := by
  rw [distLe, decide_eq_true_iff, PointData2D.distance_to, Real.sqrt_le_iff]
  constructor
  · rintro ⟨h1, h2⟩
    constructor
    · exact_mod_cast h1
    · push_cast
      exact_mod_cast h2
  · rintro ⟨h1, h2⟩
    constructor
    · exact_mod_cast h1
    · push_cast at h2
      exact_mod_cast h2

/-- The check applied to each candidate point:
`point.deletable and point.distance_to(x, y) <= threshold`. -/
def pointHit (x y t : ℚ) (p : PointData2D) : Bool :=
  p.deletable && distLe p x y t

/-- What the scan in `delete_point_near` found first: a standalone
deletable point plot (removed wholesale via `remove_plot`) or a deletable
point inside the polyline/polygon at position `i` of the iteration
order. -/
inductive HitAction where
  | standalone (pid : String)
  | inShape (i : Nat) (pointId : String)
deriving DecidableEq, Repr

/-- The `for plot in ... / for point in plot.points` double loop of
`delete_point_near`, first match wins. -/
def scanHit (x y t : ℚ) : PlotMap → Nat → Option HitAction
  | [], _ => none
  | (_, .point p) :: rest, i =>
    if pointHit x y t p then some (.standalone p.id) else scanHit x y t rest (i + 1)
  | (_, .polyline l) :: rest, i =>
    match l.points.find? (pointHit x y t) with
    | some q => some (.inShape i q.id)
    | none => scanHit x y t rest (i + 1)
  | (_, .polygon g) :: rest, i =>
    match g.points.find? (pointHit x y t) with
    | some q => some (.inShape i q.id)
    | none => scanHit x y t rest (i + 1)

/-- `plot.remove_point(point.id)` applied to the plot object stored at
position `i` (the Python code mutates the dict value in place; its boolean
result is ignored). -/
def removeInShape (m : PlotMap) (i : Nat) (pid : String) : PlotMap :=
  match m[i]? with
  | some kv =>
    m.set i (kv.1,
      match kv.2 with
      | .point p => .point p
      | .polyline l => .polyline (l.remove_point pid).2
      | .polygon g => .polygon (g.remove_point pid).2)
  | none => m

/-- `Canvas2DQViewModel.delete_point_near`: scan all plots in store order;
a standalone deletable point within threshold is removed through
`remove_plot` (which itself snapshots); a deletable point inside a
polyline/polygon triggers `save_state_for_undo` and the shape's
`remove_point`.  Returns whether anything was deleted. -/
def delete_point_near (s : Canvas2DPlotData) (x y t : ℚ) : Bool × Canvas2DPlotData :=
  match scanHit x y t s.plots 0 with
  | none => (false, s)
  | some (.standalone pid) => (true, (s.remove_plot pid).2)
  | some (.inShape i pid) =>
    (true, { s.save_state_for_undo with plots := removeInShape s.plots i pid })

/-- All candidate points of a plot, as scanned by `delete_point_near`. -/
def plotPoints : Base2DPlotData → List PointData2D
  | .point p => [p]
  | .polyline l => l.points
  | .polygon g => g.points

/-- The claim's predicate: some deletable point of some plot lies within
Euclidean distance `t` of `(x, y)`. -/
def hitExists (s : Canvas2DPlotData) (x y t : ℚ) : Prop :=
  ∃ kv ∈ s.plots, ∃ p ∈ plotPoints kv.2, p.deletable = true ∧ p.distance_to x y ≤ (t : ℝ)

lemma scanHit_isSome_iff (x y t : ℚ) (m : PlotMap) (i : Nat) :
    (scanHit x y t m i).isSome = true ↔
      ∃ kv ∈ m, ∃ p ∈ plotPoints kv.2, pointHit x y t p = true := by
  induction m generalizing i with
  | nil => simp [scanHit]
  | cons kv rest ih =>
    obtain ⟨k, pl⟩ := kv
    cases pl with
    | point p =>
      show (if pointHit x y t p then some (HitAction.standalone p.id)
            else scanHit x y t rest (i + 1)).isSome = true ↔ _
      by_cases hp : pointHit x y t p = true
      · rw [if_pos hp]
        simp only [Option.isSome_some, true_iff]
        exact ⟨(k, .point p), List.mem_cons_self _ _, p, by simp [plotPoints], hp⟩
      · rw [if_neg hp, ih (i + 1)]
        constructor
        · rintro ⟨kv2, hmem, q, hq, hhit⟩
          exact ⟨kv2, List.mem_cons_of_mem _ hmem, q, hq, hhit⟩
        · rintro ⟨kv2, hmem, q, hq, hhit⟩
          rcases List.mem_cons.mp hmem with h | h
          · subst h
            simp only [plotPoints, List.mem_singleton] at hq
            subst hq
            exact absurd hhit hp
          · exact ⟨kv2, h, q, hq, hhit⟩
    | polyline l =>
      show (match l.points.find? (pointHit x y t) with
            | some q => some (HitAction.inShape i q.id)
            | none => scanHit x y t rest (i + 1)).isSome = true ↔ _
      cases hfind : l.points.find? (pointHit x y t) with
      | some q =>
        simp only [Option.isSome_some, true_iff]
        exact ⟨(k, .polyline l), List.mem_cons_self _ _, q,
          List.mem_of_find?_eq_some hfind, List.find?_some hfind⟩
      | none =>
        rw [ih (i + 1)]
        have hnone := List.find?_eq_none.mp hfind
        constructor
        · rintro ⟨kv2, hmem, q, hq, hhit⟩
          exact ⟨kv2, List.mem_cons_of_mem _ hmem, q, hq, hhit⟩
        · rintro ⟨kv2, hmem, q, hq, hhit⟩
          rcases List.mem_cons.mp hmem with h | h
          · subst h
            exact absurd hhit (by simpa using hnone q hq)
          · exact ⟨kv2, h, q, hq, hhit⟩
    | polygon g =>
      show (match g.points.find? (pointHit x y t) with
            | some q => some (HitAction.inShape i q.id)
            | none => scanHit x y t rest (i + 1)).isSome = true ↔ _
      cases hfind : g.points.find? (pointHit x y t) with
      | some q =>
        simp only [Option.isSome_some, true_iff]
        exact ⟨(k, .polygon g), List.mem_cons_self _ _, q,
          List.mem_of_find?_eq_some hfind, List.find?_some hfind⟩
      | none =>
        rw [ih (i + 1)]
        have hnone := List.find?_eq_none.mp hfind
        constructor
        · rintro ⟨kv2, hmem, q, hq, hhit⟩
          exact ⟨kv2, List.mem_cons_of_mem _ hmem, q, hq, hhit⟩
        · rintro ⟨kv2, hmem, q, hq, hhit⟩
          rcases List.mem_cons.mp hmem with h | h
          · subst h
            exact absurd hhit (by simpa using hnone q hq)
          · exact ⟨kv2, h, q, hq, hhit⟩

lemma hitExists_iff_scan (s : Canvas2DPlotData) (x y t : ℚ) :
    hitExists s x y t ↔ (scanHit x y t s.plots 0).isSome = true := by
  rw [scanHit_isSome_iff]
  unfold hitExists
  constructor
  · rintro ⟨kv, hm, p, hp, hdel, hdist⟩
    refine ⟨kv, hm, p, hp, ?_⟩
    rw [pointHit, Bool.and_eq_true]
    exact ⟨hdel, (dist_le_iff p x y t).mpr hdist⟩
  · rintro ⟨kv, hm, p, hp, hhit⟩
    rw [pointHit, Bool.and_eq_true] at hhit
    exact ⟨kv, hm, p, hp, hhit.1, (dist_le_iff p x y t).mp hhit.2⟩

/-- C6: `delete_point_near(x, y, t)` returns `true` exactly when some
deletable point — a standalone deletable point plot or a deletable point
inside a polyline/polygon — lies within Euclidean distance `t` of
`(x, y)`; when it returns `false` the whole store (plots, both history
stacks, every dirty flag) is unchanged. -/
theorem C6_hit_test (s : Canvas2DPlotData) (x y t : ℚ) :
    ((delete_point_near s x y t).1 = true ↔ hitExists s x y t) ∧
    ((delete_point_near s x y t).1 = false → (delete_point_near s x y t).2 = s) := by
  rw [hitExists_iff_scan]
  unfold delete_point_near
  cases hscan : scanHit x y t s.plots 0 with
  | none =>
    constructor
    · show ((false, s).1 = true ↔ (Option.none : Option HitAction).isSome = true)
      simp
    · intro _
      rfl
  | some a =>
    cases a with
    | standalone pid =>
      constructor
      · show ((true, (s.remove_plot pid).2).1 = true ↔
            (Option.some (HitAction.standalone pid)).isSome = true)
        simp
      · intro hcontra
        exact absurd hcontra (by simp)
    | inShape i pid =>
      constructor
      · show ((true,
            { s.save_state_for_undo with plots := removeInShape s.plots i pid }).1 = true ↔
            (Option.some (HitAction.inShape i pid)).isSome = true)
        simp
      · intro hcontra
        exact absurd hcontra (by simp)

/-- Witness for C6 at a concrete store and query. -/
theorem C6_witness :
    ((delete_point_near freshStore 0 0 1).1 = true ↔ hitExists freshStore 0 0 1) ∧
    ((delete_point_near freshStore 0 0 1).1 = false →
      (delete_point_near freshStore 0 0 1).2 = freshStore) :=
  C6_hit_test freshStore 0 0 1

/-! ## Boundary / obstacle extraction (C8) -/

/-- The shared `[[point.x, point.y] for point in points]` plus
"remove closing point if present" step: drop the last coordinate pair
when it equals the first. -/
def ringOf (pts : List PointData2D) : List (ℚ × ℚ) :=
  match (pts.map fun p => (p.x, p.y)).head?, (pts.map fun p => (p.x, p.y)).getLast? with
  | some a, some b =>
    if a = b then (pts.map fun p => (p.x, p.y)).dropLast else pts.map fun p => (p.x, p.y)
  | _, _ => pts.map fun p => (p.x, p.y)

/-- `GaDPPRunnerQWidget._extract_boundary`: the first polygon plot with at
least 3 points, as stripped coordinate pairs; polygons with fewer points
are skipped (the `break` sits inside the `if len(points) >= 3` block). -/
def extract_boundary : PlotMap → List (ℚ × ℚ)
  | [] => []
  | (_, .polygon g) :: rest =>
    if 3 ≤ g.points.length then ringOf g.points else extract_boundary rest
  | _ :: rest => extract_boundary rest

/-- The `polygons = [plot for plot in ... if plot.type == POLYGON]` list. -/
def polygonsOf : PlotMap → List PolygonData2D
  | [] => []
  | (_, .polygon g) :: rest => g :: polygonsOf rest
  | _ :: rest => polygonsOf rest

/-- The obstacle loop body of `_extract_obstacles` over `polygons[1:]`. -/
def obstaclesFrom : List PolygonData2D → List (List (ℚ × ℚ))
  | [] => []
  | g :: rest =>
    if 3 ≤ g.points.length then
      if (ringOf g.points).isEmpty then obstaclesFrom rest
      else ringOf g.points :: obstaclesFrom rest
    else obstaclesFrom rest

/-- `GaDPPRunnerQWidget._extract_obstacles`: every polygon after the
*first polygon* (by store order), with at least 3 points, stripped;
`None` when no obstacle was collected or at most one polygon exists. -/
def extract_obstacles (m : PlotMap) : Option (List (List (ℚ × ℚ))) :=
  if 1 < (polygonsOf m).length then
    if (obstaclesFrom ((polygonsOf m).drop 1)).isEmpty then none
    else some (obstaclesFrom ((polygonsOf m).drop 1))
  else none

lemma ringOf_ne_nil (pts : List PointData2D) (h : 3 ≤ pts.length) :
    ringOf pts ≠ [] := by
  unfold ringOf
  have hlen : (pts.map fun p => (p.x, p.y)).length = pts.length := List.length_map _ _
  split
  · split
    · intro hnil
      have := List.length_dropLast (pts.map fun p => (p.x, p.y))
      rw [hnil] at this
      simp [hlen] at this
      omega
    · intro hnil
      rw [hnil] at hlen
      simp at hlen
      omega
  · intro hnil
    rw [hnil] at hlen
    simp at hlen
    omega

lemma obstaclesFrom_eq_filterMap (gs : List PolygonData2D) :
    obstaclesFrom gs =
      gs.filterMap (fun g => if 3 ≤ g.points.length then some (ringOf g.points) else none) := by
  induction gs with
  | nil => rfl
  | cons g rest ih =>
    rw [obstaclesFrom, List.filterMap_cons]
    by_cases h3 : 3 ≤ g.points.length
    · rw [if_pos h3, if_pos h3]
      have hne : (ringOf g.points).isEmpty = false := by
        rw [List.isEmpty_eq_false_iff_exists_mem]
        obtain ⟨a, as, ha⟩ := List.exists_cons_of_ne_nil (ringOf_ne_nil g.points h3)
        exact ⟨a, by rw [ha]; exact List.mem_cons_self _ _⟩
      rw [hne]
      simp only [Bool.false_eq_true, if_false]
      rw [ih]
    · rw [if_neg h3, if_neg h3, ih]

lemma extract_boundary_eq_find (m : PlotMap) :
    extract_boundary m =
      (match (polygonsOf m).find? (fun g => decide (3 ≤ g.points.length)) with
       | some g => ringOf g.points
       | none => []) := by
  induction m with
  | nil => rfl
  | cons kv rest ih =>
    obtain ⟨k, pl⟩ := kv
    cases pl with
    | point p => exact ih
    | polyline l => exact ih
    | polygon g =>
      show (if 3 ≤ g.points.length then ringOf g.points else extract_boundary rest) = _
      by_cases h3 : 3 ≤ g.points.length
      · rw [if_pos h3]
        have : (polygonsOf ((k, .polygon g) :: rest)).find?
            (fun g => decide (3 ≤ g.points.length)) = some g := by
          show (g :: polygonsOf rest).find? _ = some g
          rw [List.find?_cons_of_pos]
          simpa using h3
        rw [this]
      · rw [if_neg h3]
        have : (polygonsOf ((k, .polygon g) :: rest)).find?
            (fun g => decide (3 ≤ g.points.length))
            = (polygonsOf rest).find? (fun g => decide (3 ≤ g.points.length)) := by
          show (g :: polygonsOf rest).find? _ = _
          rw [List.find?_cons_of_neg]
          simpa using h3
        rw [this, ih]

/-- C8 (amended): the boundary extraction returns the stripped coordinate
pairs of the first polygon (in store order) with at least 3 points, and
the obstacle extraction returns the stripped pairs of every polygon with
at least 3 points that comes after the *first polygon in store order* —
not after the boundary polygon.  When the first polygon has fewer than 3
points, the boundary polygon itself therefore also appears among the
obstacles (original claim refuted by `C8_counterexample`). -/
theorem C8_boundary_obstacles (m : PlotMap) :
    extract_boundary m =
      (match (polygonsOf m).find? (fun g => decide (3 ≤ g.points.length)) with
       | some g => ringOf g.points
       | none => []) ∧
    extract_obstacles m =
      (if 1 < (polygonsOf m).length then
        (if ((polygonsOf m).drop 1).filterMap
              (fun g => if 3 ≤ g.points.length then some (ringOf g.points) else none) = []
         then none
         else some (((polygonsOf m).drop 1).filterMap
              (fun g => if 3 ≤ g.points.length then some (ringOf g.points) else none)))
       else none) := by
  constructor
  · exact extract_boundary_eq_find m
  · unfold extract_obstacles
    rw [obstaclesFrom_eq_filterMap]
    by_cases h1 : 1 < (polygonsOf m).length
    · rw [if_pos h1, if_pos h1]
      by_cases h2 : ((polygonsOf m).drop 1).filterMap
          (fun g => if 3 ≤ g.points.length then some (ringOf g.points) else none) = []
      · rw [if_pos (by rw [h2]; rfl), if_pos h2]
      · rw [if_neg ?hne, if_neg h2]
        case hne =>
          rw [List.isEmpty_iff]
          exact h2
    · rw [if_neg h1, if_neg h1]

/-- C8 fails as stated: a store whose first polygon has only 2 points and
whose second has 3.  The boundary is taken from the *second* polygon (the
first with ≥ 3 points), but the obstacle extraction skips only the first
polygon, so the very same (boundary) polygon is also returned as an
obstacle. -/
theorem C8_counterexample :
    extract_boundary
        [("A", .polygon (mkPolygonData2D "A"
            [⟨"a", 5, 5, "r", true, true⟩, ⟨"b", 6, 5, "r", true, true⟩] "g" true)),
         ("B", .polygon (mkPolygonData2D "B"
            [⟨"p", 0, 0, "r", true, true⟩, ⟨"q", 1, 0, "r", true, true⟩,
             ⟨"r", 0, 1, "r", true, true⟩] "g" true))]
      = [(0, 0), (1, 0), (0, 1)] ∧
    extract_obstacles
        [("A", .polygon (mkPolygonData2D "A"
            [⟨"a", 5, 5, "r", true, true⟩, ⟨"b", 6, 5, "r", true, true⟩] "g" true)),
         ("B", .polygon (mkPolygonData2D "B"
            [⟨"p", 0, 0, "r", true, true⟩, ⟨"q", 1, 0, "r", true, true⟩,
             ⟨"r", 0, 1, "r", true, true⟩] "g" true))]
      = some [[(0, 0), (1, 0), (0, 1)]] := by
  decide

end Cygnus
